import Mathlib

/-!
Verification of the LCOV coverage-report conversion engine.

The definitions below are a shallow embedding of the TypeScript source:
`parseLcovData`, `lcovToCoverageReport`, `lcovToJsonSummary`,
`lcovToJsonFinal`, `parseBunLcovSummary` and `parseBunLcovFinal`.

Modelling conventions:
* A JavaScript number produced by `parseInt(s, 10)` is always an integer or
  `NaN`; it is modelled as `Option ℤ`, with `none` standing for `NaN`.
  Arithmetic and comparisons on these values follow JavaScript semantics
  (`NaN` is absorbing for `+`, and every comparison with `NaN` is false).
* The only non-integer number in the engine is the `pct` field, which is
  modelled exactly as `Option ℚ` (`none` for `NaN`); `Math.round` is
  `fun x => ⌊x + 1/2⌋`, which agrees with JavaScript on every argument.
* JavaScript strings are Lean `String`s; inside the parser a line is worked
  on as a `List Char` so that `trim`, `split` and `startsWith` are the
  structurally recursive functions below (mirroring the JS library calls).
* A JavaScript object used as a string-keyed map is an insertion-ordered
  association list; assignment `m[k] = v` (`objSet`) overwrites the value
  in place when the key is present and appends a new entry otherwise.
-/

/-- A JavaScript integer-or-NaN value (`none` = `NaN`). -/
abbrev JSNum := Option ℤ

/-- JS `+` on integer-or-NaN values: `NaN` propagates. -/
def jsAdd : JSNum → JSNum → JSNum
  | some a, some b => some (a + b)
  | _, _ => none

/-- JS `x > 0` on an integer-or-NaN value: comparisons with `NaN` are false. -/
def jsGt0 : JSNum → Bool
  | some a => decide (0 < a)
  | none => false

/-- A JS rational-or-NaN value (`none` = `NaN`), used for `pct`. -/
abbrev JSRat := Option ℚ

/-- Cast an integer-or-NaN value into a rational-or-NaN value. -/
def toQ : JSNum → JSRat
  | some a => some (a : ℚ)
  | none => none

/-- JS `*` on rational-or-NaN values. -/
def jsMulQ : JSRat → JSRat → JSRat
  | some a, some b => some (a * b)
  | _, _ => none

/-- JS `/` on rational-or-NaN values.  The engine only divides under a
`> 0` guard on the divisor, so division by zero never happens; it is mapped
to `NaN` here. -/
def jsDivQ : JSRat → JSRat → JSRat
  | some a, some b => if b = 0 then none else some (a / b)
  | _, _ => none

/-- JS `Math.round`: for every finite `x`, `Math.round x = ⌊x + 1/2⌋`
(ties go toward positive infinity). -/
def jsRoundQ : JSRat → JSRat
  | some a => some ((⌊a + 1/2⌋ : ℤ) : ℚ)
  | none => none

/-- The whitespace characters removed by JS `String.prototype.trim`
(ASCII part; the engine's directives are ASCII). -/
def isWsJS (c : Char) : Bool :=
  c = ' ' ∨ c = '\t' ∨ c = '\n' ∨ c = '\r' ∨ c = '\x0b' ∨ c = '\x0c'

/-- JS `line.trim()` on a character list. -/
def trimJS (cs : List Char) : List Char :=
  ((cs.dropWhile isWsJS).reverse.dropWhile isWsJS).reverse

/-- JS `str.split(sep)` for a one-character separator: always returns at
least one (possibly empty) piece, e.g. `"" ↦ [""]` and `"a\nb" ↦ ["a","b"]`. -/
def splitChar (sep : Char) : List Char → List (List Char)
  | [] => [[]]
  | c :: rest =>
    if c = sep then [] :: splitChar sep rest
    else
      match splitChar sep rest with
      | h :: t => (c :: h) :: t
      | [] => [[c]]

/-- JS `s.startsWith(tag)` on character lists. -/
def startsWithChars (tag cs : List Char) : Bool :=
  tag.isPrefixOf cs

/-- Decimal digit run to a natural number. -/
def digitsToNat (ds : List Char) : ℕ :=
  ds.foldl (fun a c => a * 10 + (c.toNat - 48)) 0

/-- JS `parseInt(s, 10)`: skip leading whitespace, optional sign, then the
longest run of decimal digits; `NaN` (`none`) if that run is empty.
Trailing garbage is ignored, exactly as in JavaScript. -/
def parseIntJS (cs : List Char) : JSNum :=
  match cs.dropWhile isWsJS with
  | '-' :: rest =>
    let ds := rest.takeWhile Char.isDigit
    if ds.isEmpty then none else some (-(digitsToNat ds : ℤ))
  | '+' :: rest =>
    let ds := rest.takeWhile Char.isDigit
    if ds.isEmpty then none else some (digitsToNat ds : ℤ)
  | other =>
    let ds := other.takeWhile Char.isDigit
    if ds.isEmpty then none else some (digitsToNat ds : ℤ)

/-- One `DA:` entry of a record: LCOV line number and hit count. -/
structure LcovLine where
  line : JSNum
  hit : JSNum
  deriving DecidableEq, Repr

/-- The `{found, hit}` counter pair used for functions and branches. -/
structure FoundHit where
  found : JSNum
  hit : JSNum
  deriving DecidableEq, Repr

/-- One parsed LCOV record (the source's `LcovRecord` interface). -/
structure LcovRecord where
  sourceFile : String
  lines : List LcovLine
  functions : FoundHit
  branches : FoundHit
  deriving DecidableEq, Repr

/-- The characters of the `SF:` directive tag. -/
def sfTag : List Char := ['S', 'F', ':']

/-- The characters of the `DA:` directive tag. -/
def daTag : List Char := ['D', 'A', ':']

/-- The characters of the `FNF:` directive tag. -/
def fnfTag : List Char := ['F', 'N', 'F', ':']

/-- The characters of the `FNH:` directive tag. -/
def fnhTag : List Char := ['F', 'N', 'H', ':']

/-- The characters of the `BRF:` directive tag. -/
def brfTag : List Char := ['B', 'R', 'F', ':']

/-- The characters of the `BRH:` directive tag. -/
def brhTag : List Char := ['B', 'R', 'H', ':']

/-- The characters of the `end_of_record` marker. -/
def eorChars : List Char :=
  ['e', 'n', 'd', '_', 'o', 'f', '_', 'r', 'e', 'c', 'o', 'r', 'd']

/-- Parse the payload of a `DA:` directive:
`const [lineStr, hitStr] = trimmed.substring(3).split(',')` followed by
`parseInt` on both parts.  A missing second part is JS `undefined`, and
`parseInt(undefined)` is `NaN`. -/
def daEntry (cs : List Char) : LcovLine :=
  match splitChar ',' cs with
  | [] => { line := none, hit := none }
  | [a] => { line := parseIntJS a, hit := none }
  | a :: b :: _ => { line := parseIntJS a, hit := parseIntJS b }

/-- The parser state: records already materialized, and the mutable
`currentRecord` slot (`none` when no record is open). -/
abbrev ParseState := List LcovRecord × Option LcovRecord

/-- One iteration of the `for (const line of lines)` loop of
`parseLcovData`, with the branch structure and branch order of the source. -/
def processLine (st : ParseState) (rawLine : List Char) : ParseState :=
  let trimmed := trimJS rawLine
  if trimmed.isEmpty then st
  else if startsWithChars sfTag trimmed then
    (st.1, some { sourceFile := ((trimmed.drop 3).asString), lines := [],
                  functions := { found := some 0, hit := some 0 },
                  branches := { found := some 0, hit := some 0 } })
  else if startsWithChars daTag trimmed then
    match st.2 with
    | some r => (st.1, some { r with lines := r.lines ++ [daEntry (trimmed.drop 3)] })
    | none => st
  else if startsWithChars fnfTag trimmed then
    match st.2 with
    | some r => (st.1, some { r with functions := { r.functions with found := parseIntJS (trimmed.drop 4) } })
    | none => st
  else if startsWithChars fnhTag trimmed then
    match st.2 with
    | some r => (st.1, some { r with functions := { r.functions with hit := parseIntJS (trimmed.drop 4) } })
    | none => st
  else if startsWithChars brfTag trimmed then
    match st.2 with
    | some r => (st.1, some { r with branches := { r.branches with found := parseIntJS (trimmed.drop 4) } })
    | none => st
  else if startsWithChars brhTag trimmed then
    match st.2 with
    | some r => (st.1, some { r with branches := { r.branches with hit := parseIntJS (trimmed.drop 4) } })
    | none => st
  else if trimmed = eorChars then
    match st.2 with
    | some r => (if r.sourceFile ≠ "" then st.1 ++ [r] else st.1, none)
    | none => (st.1, none)
  else st

/-- Run the parser loop over a list of raw lines. -/
def parseLcovLines (ls : List (List Char)) : List LcovRecord :=
  (ls.foldl processLine ([], none)).1

/-- The source's `parseLcovData`: split the content on `'\n'` and fold the
line handler over the pieces. -/
def parseLcovData (lcovContent : String) : List LcovRecord :=
  parseLcovLines (splitChar '\n' lcovContent.toList)

/-- One `{total, covered, skipped, pct}` metric of the summary
(the vitest `CoverageReport` entry shape). -/
structure CoverageMetric where
  total : JSNum
  covered : JSNum
  skipped : JSNum
  pct : JSRat
  deriving DecidableEq, Repr

/-- The `{lines, statements, functions, branches}` bundle produced by
`lcovToCoverageReport`. -/
structure CoverageReport where
  lines : CoverageMetric
  statements : CoverageMetric
  functions : CoverageMetric
  branches : CoverageMetric
  deriving DecidableEq, Repr

/-- `total > 0 ? Math.round((covered / total) * 100 * 100) / 100 : 0`,
the `pct` expression of the source. -/
def pctOf (covered total : JSNum) : JSRat :=
  if jsGt0 total then
    jsDivQ (jsRoundQ (jsMulQ (jsMulQ (jsDivQ (toQ covered) (toQ total)) (some 100)) (some 100))) (some 100)
  else some 0

/-- Assemble one metric from its accumulated counts (`skipped` is always 0). -/
def mkMetric (total covered : JSNum) : CoverageMetric :=
  { total := total, covered := covered, skipped := some 0, pct := pctOf covered total }

/-- `totalLines`: accumulated `record.lines.length`. -/
def sumLinesLen (records : List LcovRecord) : ℕ :=
  records.foldl (fun a r => a + r.lines.length) 0

/-- `coveredLines`: accumulated `record.lines.filter(l => l.hit > 0).length`. -/
def sumLinesCovered (records : List LcovRecord) : ℕ :=
  records.foldl (fun a r => a + (r.lines.filter (fun l => jsGt0 l.hit)).length) 0

/-- `totalFunctions`: accumulated `record.functions.found`. -/
def sumFnFound (records : List LcovRecord) : JSNum :=
  records.foldl (fun a r => jsAdd a r.functions.found) (some 0)

/-- `coveredFunctions`: accumulated `record.functions.hit`. -/
def sumFnHit (records : List LcovRecord) : JSNum :=
  records.foldl (fun a r => jsAdd a r.functions.hit) (some 0)

/-- `totalBranches`: accumulated `record.branches.found`. -/
def sumBrFound (records : List LcovRecord) : JSNum :=
  records.foldl (fun a r => jsAdd a r.branches.found) (some 0)

/-- `coveredBranches`: accumulated `record.branches.hit`. -/
def sumBrHit (records : List LcovRecord) : JSNum :=
  records.foldl (fun a r => jsAdd a r.branches.hit) (some 0)

/-- The source's `lcovToCoverageReport` (the Aggregator).  The source keeps
separate `totalStatements`/`coveredStatements` accumulators whose updates
are identical to the line accumulators, so statements reuse the same sums. -/
def lcovToCoverageReport (records : List LcovRecord) : CoverageReport :=
  { lines := mkMetric (some (sumLinesLen records : ℤ)) (some (sumLinesCovered records : ℤ))
    statements := mkMetric (some (sumLinesLen records : ℤ)) (some (sumLinesCovered records : ℤ))
    functions := mkMetric (sumFnFound records) (sumFnHit records)
    branches := mkMetric (sumBrFound records) (sumBrHit records) }

/-- JS object assignment `m[k] = v`: replace in place when the key exists,
append otherwise. -/
def objSet {α : Type} (m : List (String × α)) (k : String) (v : α) : List (String × α) :=
  if m.any (fun p => p.1 = k) then
    m.map (fun p => if p.1 = k then (k, v) else p)
  else m ++ [(k, v)]

/-- The `JsonSummary` shape: an insertion-ordered string-keyed map of
coverage bundles. -/
abbrev JsonSummary := List (String × CoverageReport)

/-- The source's `lcovToJsonSummary` (the Summary Builder): the `total`
entry first, then one assignment per record in parse order. -/
def lcovToJsonSummary (records : List LcovRecord) : JsonSummary :=
  records.foldl
    (fun summary r => objSet summary r.sourceFile (lcovToCoverageReport [r]))
    [("total", lcovToCoverageReport records)]

/-- A `{line, column}` position of the final map. -/
structure StmtPos where
  line : JSNum
  column : JSNum
  deriving DecidableEq, Repr

/-- A `{start, end}` statement span of the final map (the source field
`end` is a Lean keyword and is called `stop` here). -/
structure StmtRange where
  start : StmtPos
  stop : StmtPos
  deriving DecidableEq, Repr

/-- One file entry of the final report: `{path, all, statementMap, s}`. -/
structure FileCoverageReport where
  path : String
  all : Bool
  statementMap : List (String × StmtRange)
  s : List (String × JSNum)
  deriving DecidableEq, Repr

/-- The `JsonFinal` shape: a string-keyed map of per-file detail objects. -/
abbrev JsonFinal := List (String × FileCoverageReport)

/-- The per-record body of `lcovToJsonFinal`'s loop: the statement id is
`String(index)`, the stringified zero-based position inside `record.lines`;
both inner maps receive fresh keys in index order, so the `forEach` loop
builds exactly these association lists. -/
def fileFinalOf (r : LcovRecord) : FileCoverageReport :=
  { path := r.sourceFile
    all := false
    statementMap := r.lines.enum.map (fun p =>
      (toString p.1,
        { start := { line := p.2.line, column := some 0 },
          stop := { line := p.2.line, column := some 100 } }))
    s := r.lines.enum.map (fun p => (toString p.1, p.2.hit)) }

/-- The source's `lcovToJsonFinal` (the Final-Map Builder). -/
def lcovToJsonFinal (records : List LcovRecord) : JsonFinal :=
  records.foldl (fun final r => objSet final r.sourceFile (fileFinalOf r)) []

/-- Outcome of the `readFile` call of the Report Loader: either the file
content, or a thrown read/decode failure (the only throwing step — the
parser and the two builders are total). -/
inductive ReadResult where
  | ok (content : String)
  | err
  deriving DecidableEq, Repr

/-- Diagnostics emitted by the Report Loader (`core.setFailed` marks the
run as failed, `core.warning` only logs). -/
inductive LogEvent where
  | logSetFailed
  | logWarning
  deriving DecidableEq, Repr

/-- The source's `parseBunLcovSummary`: on success parse and build the
summary; on failure log via `core.setFailed` and rethrow (`Except.error`). -/
def parseBunLcovSummary (read : ReadResult) : List LogEvent × Except Unit JsonSummary :=
  match read with
  | .ok content => ([], .ok (lcovToJsonSummary (parseLcovData content)))
  | .err => ([.logSetFailed], .error ())

/-- The source's `parseBunLcovFinal`: on success parse and build the final
map; on failure log via `core.warning` and return the empty map. -/
def parseBunLcovFinal (read : ReadResult) : List LogEvent × JsonFinal :=
  match read with
  | .ok content => ([], lcovToJsonFinal (parseLcovData content))
  | .err => ([.logWarning], [])

/-- JS property read `m[k]`: the value at the first (hence only) entry with
key `k`, if any. -/
def objGet {α : Type} (m : List (String × α)) (k : String) : Option α :=
  match m with
  | [] => none
  | p :: rest => if p.1 = k then some p.2 else objGet rest k

/-- JS summation of a list of integer-or-NaN values, starting from `0`. -/
def jsSum (l : List JSNum) : JSNum := l.foldl jsAdd (some 0)

/-- The `DA:` payloads of a run of body lines, in order of appearance. -/
def daEntriesOf (body : List (List Char)) : List LcovLine :=
  (body.filter (fun l => startsWithChars daTag (trimJS l))).map
    (fun l => daEntry ((trimJS l).drop 3))

/-- One well-formed `SF:` … `end_of_record` block of an LCOV text. -/
structure LcovBlock where
  sf : List Char
  body : List (List Char)
  endl : List Char

/-- Well-formedness of a block: the opening line is an `SF:` directive with
a non-empty path, no body line opens a record or closes one, and the
closing line is the `end_of_record` marker. -/
def wfBlock (b : LcovBlock) : Prop :=
  startsWithChars sfTag (trimJS b.sf) = true ∧
  (trimJS b.sf).drop 3 ≠ [] ∧
  (∀ l ∈ b.body, startsWithChars sfTag (trimJS l) = false ∧ trimJS l ≠ eorChars) ∧
  trimJS b.endl = eorChars

instance wfBlock_decidable (b : LcovBlock) : Decidable (wfBlock b) := by
  unfold wfBlock
  infer_instance

/-- The raw lines of a block. -/
def blockLinesOf (b : LcovBlock) : List (List Char) := b.sf :: b.body ++ [b.endl]

/-- The source-file path a block's `SF:` line carries. -/
def sfPathOf (b : LcovBlock) : String := ((trimJS b.sf).drop 3).asString

/-- Modelled from the spec: rounding to two decimal places with
round-half-up, `round(x, 2)`. -/
def roundHalfUp2 (x : ℚ) : ℚ := ((⌊x * 100 + 1 / 2⌋ : ℤ) : ℚ) / 100

/-- A non-blank line matching none of the source's seven directive tests
(the final `else` of the branch chain). -/
def unrecognizedLine (l : List Char) : Prop :=
  (trimJS l).isEmpty = false ∧
  startsWithChars sfTag (trimJS l) = false ∧
  startsWithChars daTag (trimJS l) = false ∧
  startsWithChars fnfTag (trimJS l) = false ∧
  startsWithChars fnhTag (trimJS l) = false ∧
  startsWithChars brfTag (trimJS l) = false ∧
  startsWithChars brhTag (trimJS l) = false ∧
  trimJS l ≠ eorChars

instance unrecognizedLine_decidable (l : List Char) : Decidable (unrecognizedLine l) := by
  unfold unrecognizedLine
  infer_instance

lemma processLine_blank (st : ParseState) (l : List Char) (h : (trimJS l).isEmpty = true) :
    processLine st l = st := by
  simp [processLine, h]

lemma startsWith_not_nil {a : Char} {tag cs : List Char}
    (h : startsWithChars (a :: tag) cs = true) : cs.isEmpty = false := by
  cases cs with
  | nil => simp [startsWithChars, List.isPrefixOf] at h
  | cons c cs => rfl

lemma head_excl {a b : Char} {ta tb cs : List Char} (hab : b ≠ a)
    (h : startsWithChars (a :: ta) cs = true) :
    startsWithChars (b :: tb) cs = false := by
  cases cs with
  | nil => simp [startsWithChars, List.isPrefixOf] at h
  | cons c cs =>
    simp [startsWithChars, List.isPrefixOf] at h ⊢
    intro hbc
    exact absurd (hbc.trans h.1.symm) hab

lemma processLine_sf (st : ParseState) (l : List Char)
    (h : startsWithChars sfTag (trimJS l) = true) :
    processLine st l =
      (st.1, some { sourceFile := (((trimJS l).drop 3).asString), lines := [],
                    functions := { found := some 0, hit := some 0 },
                    branches := { found := some 0, hit := some 0 } }) := by
  have hne : (trimJS l).isEmpty = false := startsWith_not_nil (by simpa [sfTag] using h)
  simp [processLine, hne, h]

lemma processLine_none (acc : List LcovRecord) (l : List Char)
    (h : startsWithChars sfTag (trimJS l) = false) :
    processLine (acc, none) l = (acc, none) := by
  simp only [processLine]
  split_ifs <;> simp_all

lemma processLine_eor_some (acc : List LcovRecord) (r : LcovRecord) (l : List Char)
    (h : trimJS l = eorChars) :
    processLine (acc, some r) l = (if r.sourceFile ≠ "" then acc ++ [r] else acc, none) := by
  have e1 : eorChars.isEmpty = false := rfl
  have e2 : startsWithChars sfTag eorChars = false := rfl
  have e3 : startsWithChars daTag eorChars = false := rfl
  have e4 : startsWithChars fnfTag eorChars = false := rfl
  have e5 : startsWithChars fnhTag eorChars = false := rfl
  have e6 : startsWithChars brfTag eorChars = false := rfl
  have e7 : startsWithChars brhTag eorChars = false := rfl
  simp [processLine, h, e1, e2, e3, e4, e5, e6, e7]

lemma processLine_eor_none (acc : List LcovRecord) (l : List Char)
    (h : trimJS l = eorChars) :
    processLine (acc, none) l = (acc, none) := by
  have e2 : startsWithChars sfTag eorChars = false := rfl
  exact processLine_none acc l (by rw [h]; exact e2)

lemma processLine_fst (st : ParseState) (l : List Char) (h : trimJS l ≠ eorChars) :
    (processLine st l).1 = st.1 := by
  obtain ⟨acc, cur⟩ := st
  cases cur <;>
  · simp only [processLine]
    split_ifs <;> simp_all

lemma processLine_some (acc : List LcovRecord) (r : LcovRecord) (l : List Char)
    (hsf : startsWithChars sfTag (trimJS l) = false)
    (heor : trimJS l ≠ eorChars) :
    ∃ r' : LcovRecord,
      processLine (acc, some r) l = (acc, some r') ∧
      r'.sourceFile = r.sourceFile ∧
      r'.lines = r.lines ++
        (if startsWithChars daTag (trimJS l) then [daEntry ((trimJS l).drop 3)] else []) := by
  by_cases h1 : (trimJS l).isEmpty
  · refine ⟨r, processLine_blank _ _ h1, rfl, ?_⟩
    have hda : startsWithChars daTag (trimJS l) = false := by
      cases he : trimJS l with
      | nil => simp [startsWithChars, daTag, List.isPrefixOf]
      | cons c cs => rw [he] at h1; simp at h1
    simp [hda]
  · by_cases h3 : startsWithChars daTag (trimJS l)
    · exact ⟨{ r with lines := r.lines ++ [daEntry ((trimJS l).drop 3)] },
        by simp [processLine, h1, hsf, h3], rfl, by simp [h3]⟩
    · by_cases h4 : startsWithChars fnfTag (trimJS l)
      · exact ⟨{ r with functions := { r.functions with found := parseIntJS ((trimJS l).drop 4) } },
          by simp [processLine, h1, hsf, h3, h4], rfl, by simp [h3]⟩
      · by_cases h5 : startsWithChars fnhTag (trimJS l)
        · exact ⟨{ r with functions := { r.functions with hit := parseIntJS ((trimJS l).drop 4) } },
            by simp [processLine, h1, hsf, h3, h4, h5], rfl, by simp [h3]⟩
        · by_cases h6 : startsWithChars brfTag (trimJS l)
          · exact ⟨{ r with branches := { r.branches with found := parseIntJS ((trimJS l).drop 4) } },
              by simp [processLine, h1, hsf, h3, h4, h5, h6], rfl, by simp [h3]⟩
          · by_cases h7 : startsWithChars brhTag (trimJS l)
            · exact ⟨{ r with branches := { r.branches with hit := parseIntJS ((trimJS l).drop 4) } },
                by simp [processLine, h1, hsf, h3, h4, h5, h6, h7], rfl, by simp [h3]⟩
            · exact ⟨r, by simp [processLine, h1, hsf, h3, h4, h5, h6, h7, heor], rfl, by simp [h3]⟩

lemma daEntriesOf_cons (l : List Char) (body : List (List Char)) :
    daEntriesOf (l :: body) =
      (if startsWithChars daTag (trimJS l) then [daEntry ((trimJS l).drop 3)] else []) ++
        daEntriesOf body := by
  by_cases h : startsWithChars daTag (trimJS l) <;>
    simp [daEntriesOf, List.filter_cons, h]

lemma asString_ne_empty {cs : List Char} (h : cs ≠ []) : cs.asString ≠ "" := by
  intro hcon
  apply h
  have hdata := congrArg String.data hcon
  simpa [List.asString] using hdata

lemma foldl_body (body : List (List Char)) (acc : List LcovRecord) (r : LcovRecord)
    (h : ∀ l ∈ body, startsWithChars sfTag (trimJS l) = false ∧ trimJS l ≠ eorChars) :
    ∃ r' : LcovRecord,
      body.foldl processLine (acc, some r) = (acc, some r') ∧
      r'.sourceFile = r.sourceFile ∧
      r'.lines = r.lines ++ daEntriesOf body := by
  induction body generalizing r with
  | nil => exact ⟨r, rfl, rfl, by simp [daEntriesOf]⟩
  | cons l body ih =>
    obtain ⟨hsf, heor⟩ := h l (by simp)
    obtain ⟨r₁, hstep, hsf₁, hlines₁⟩ := processLine_some acc r l hsf heor
    obtain ⟨r', hfold, hsf', hlines'⟩ := ih r₁ (fun l hl => h l (by simp [hl]))
    refine ⟨r', ?_, by rw [hsf', hsf₁], ?_⟩
    · rw [List.foldl_cons, hstep, hfold]
    · rw [hlines', hlines₁, daEntriesOf_cons, List.append_assoc]

lemma foldl_block (b : LcovBlock) (acc : List LcovRecord) (cur : Option LcovRecord)
    (h : wfBlock b) :
    ∃ r' : LcovRecord,
      (blockLinesOf b).foldl processLine (acc, cur) = (acc ++ [r'], none) ∧
      r'.sourceFile = sfPathOf b ∧
      r'.lines = daEntriesOf b.body := by
  obtain ⟨hsf, hpath, hbody, hend⟩ := h
  have h1 : processLine (acc, cur) b.sf =
      (acc, some { sourceFile := sfPathOf b, lines := [],
                   functions := { found := some 0, hit := some 0 },
                   branches := { found := some 0, hit := some 0 } }) :=
    processLine_sf (acc, cur) b.sf hsf
  obtain ⟨r', h2, hsf', hlines'⟩ :=
    foldl_body b.body acc
      { sourceFile := sfPathOf b, lines := [],
        functions := { found := some 0, hit := some 0 },
        branches := { found := some 0, hit := some 0 } } hbody
  have hsrc : r'.sourceFile = sfPathOf b := hsf'
  have h3 : processLine (acc, some r') b.endl = (acc ++ [r'], none) := by
    rw [processLine_eor_some _ _ _ hend, if_pos]
    rw [hsrc]
    exact asString_ne_empty hpath
  refine ⟨r', ?_, hsrc, by simpa using hlines'⟩
  show List.foldl processLine (acc, cur) (b.sf :: (b.body ++ [b.endl])) = (acc ++ [r'], none)
  simp only [List.foldl_cons, List.foldl_append, List.foldl_nil, h1, h2, h3]

lemma foldl_blocks (bs : List LcovBlock) (acc : List LcovRecord)
    (h : ∀ b ∈ bs, wfBlock b) :
    ∃ out : List LcovRecord,
      ((bs.map blockLinesOf).flatten).foldl processLine (acc, none) = (acc ++ out, none) ∧
      out.map (fun r => r.sourceFile) = bs.map sfPathOf ∧
      out.map (fun r => r.lines) = bs.map (fun b => daEntriesOf b.body) := by
  induction bs generalizing acc with
  | nil => exact ⟨[], by simp, rfl, rfl⟩
  | cons b bs ih =>
    obtain ⟨r', h1, hsf, hlines⟩ := foldl_block b acc none (h b (by simp))
    obtain ⟨out, h2, hsfs, hliness⟩ := ih (acc ++ [r']) (fun b hb => h b (by simp [hb]))
    refine ⟨r' :: out, ?_, by simp [hsf, hsfs], by simp [hlines, hliness]⟩
    rw [List.map_cons, List.flatten_cons, List.foldl_append, h1, h2, List.append_assoc,
      List.singleton_append]

lemma objGet_map_replace {α : Type} (m : List (String × α)) (k s : String) (v : α)
    (h : s ≠ k) :
    objGet (m.map fun p => if p.1 = s then (s, v) else p) k = objGet m k := by
  induction m with
  | nil => rfl
  | cons p m ih =>
    by_cases hp : p.1 = s
    · simp [objGet, hp, h, ih]
    · simp only [List.map_cons, if_neg hp]
      by_cases hk : p.1 = k <;> simp [objGet, hk, ih]

lemma objGet_append_single {α : Type} (m : List (String × α)) (k s : String) (v : α)
    (h : s ≠ k) :
    objGet (m ++ [(s, v)]) k = objGet m k := by
  induction m with
  | nil => simp [objGet, h]
  | cons p m ih =>
    by_cases hk : p.1 = k <;> simp [objGet, hk, ih]

lemma objSet_get_other {α : Type} (m : List (String × α)) (k s : String) (v : α)
    (h : s ≠ k) : objGet (objSet m s v) k = objGet m k := by
  unfold objSet
  split_ifs with hmem
  · exact objGet_map_replace m k s v h
  · exact objGet_append_single m k s v h

lemma objGet_map_replace_self {α : Type} (m : List (String × α)) (k : String) (v : α)
    (hmem : m.any (fun p => p.1 = k) = true) :
    objGet (m.map fun p => if p.1 = k then (k, v) else p) k = some v := by
  induction m with
  | nil => simp at hmem
  | cons p m ih =>
    by_cases hp : p.1 = k
    · simp [objGet, hp]
    · have hmem' : m.any (fun p => p.1 = k) = true := by
        simpa [List.any_cons, hp] using hmem
      simp [objGet, hp, ih hmem']

lemma objGet_append_self {α : Type} (m : List (String × α)) (k : String) (v : α)
    (hmem : m.any (fun p => p.1 = k) = false) :
    objGet (m ++ [(k, v)]) k = some v := by
  induction m with
  | nil => simp [objGet]
  | cons p m ih =>
    simp only [List.any_cons, Bool.or_eq_false_iff, decide_eq_false_iff_not] at hmem
    simp [objGet, hmem.1, ih (by simpa using hmem.2)]

lemma objSet_get_self {α : Type} (m : List (String × α)) (k : String) (v : α) :
    objGet (objSet m k v) k = some v := by
  unfold objSet
  split_ifs with hmem
  · exact objGet_map_replace_self m k v hmem
  · exact objGet_append_self m k v (Bool.eq_false_iff.mpr hmem)

lemma objSet_append_new {α : Type} (m : List (String × α)) (k : String) (v : α)
    (h : m.any (fun p => p.1 = k) = false) : objSet m k v = m ++ [(k, v)] := by
  simp [objSet, h]

lemma jsAdd_zero (x : JSNum) : jsAdd (some 0) x = x := by
  cases x <;> simp [jsAdd]

lemma jsSum_map_natCast {α : Type} (f : α → ℕ) (l : List α) :
    ∀ n : ℕ, l.foldl (fun a x => jsAdd a (some (f x : ℤ))) (some (n : ℤ))
      = some ((l.foldl (fun a x => a + f x) n : ℕ) : ℤ) := by
  induction l with
  | nil => intro n; rfl
  | cons x l ih =>
    intro n
    have hstep : jsAdd (some (n : ℤ)) (some (f x : ℤ)) = some ((n + f x : ℕ) : ℤ) := by
      simp [jsAdd]
    simp only [List.foldl_cons, hstep, ih]

lemma sumLinesLen_single (r : LcovRecord) : sumLinesLen [r] = r.lines.length := by
  simp [sumLinesLen]

lemma sumLinesCovered_single (r : LcovRecord) :
    sumLinesCovered [r] = (r.lines.filter (fun l => jsGt0 l.hit)).length := by
  simp [sumLinesCovered]

lemma sumFnFound_single (r : LcovRecord) : sumFnFound [r] = r.functions.found := by
  simp [sumFnFound, jsAdd_zero]

lemma sumFnHit_single (r : LcovRecord) : sumFnHit [r] = r.functions.hit := by
  simp [sumFnHit, jsAdd_zero]

lemma sumBrFound_single (r : LcovRecord) : sumBrFound [r] = r.branches.found := by
  simp [sumBrFound, jsAdd_zero]

lemma sumBrHit_single (r : LcovRecord) : sumBrHit [r] = r.branches.hit := by
  simp [sumBrHit, jsAdd_zero]

lemma jsSum_natCast_total {α : Type} (f : α → ℕ) (l : List α) :
    jsSum (l.map fun x => some (f x : ℤ)) = some ((l.foldl (fun a x => a + f x) 0 : ℕ) : ℤ) := by
  have h := jsSum_map_natCast f l 0
  simpa [jsSum, List.foldl_map] using h

lemma jsSum_foldl {α : Type} (g : α → JSNum) (l : List α) :
    jsSum (l.map g) = l.foldl (fun a x => jsAdd a (g x)) (some 0) := by
  simp [jsSum, List.foldl_map]

lemma pctOf_pos (c t : ℤ) (ht : 0 < t) :
    pctOf (some c) (some t) = some (roundHalfUp2 ((c : ℚ) / (t : ℚ) * 100)) := by
  have htq : (t : ℚ) ≠ 0 := Int.cast_ne_zero.mpr ht.ne'
  have h100 : (100 : ℚ) ≠ 0 := by norm_num
  simp [pctOf, jsGt0, ht, toQ, jsDivQ, jsMulQ, jsRoundQ, htq, h100, roundHalfUp2]

lemma pctOf_nonpos (t : ℤ) (c : JSNum) (ht : ¬ 0 < t) : pctOf c (some t) = some 0 := by
  simp [pctOf, jsGt0, ht]

lemma pctOf_nan_total (c : JSNum) : pctOf c none = some 0 := by
  simp [pctOf, jsGt0]

lemma mkMetric_pct_cases (T C : JSNum) :
    ((mkMetric T C).total = some 0 → (mkMetric T C).pct = some 0) ∧
    (∀ t : ℤ, (mkMetric T C).total = some t → ¬ 0 < t → (mkMetric T C).pct = some 0) ∧
    ((mkMetric T C).total = none → (mkMetric T C).pct = some 0) ∧
    (∀ t c : ℤ, (mkMetric T C).total = some t → (mkMetric T C).covered = some c → 0 < t →
      (mkMetric T C).pct = some (roundHalfUp2 ((c : ℚ) / (t : ℚ) * 100))) := by
  refine ⟨?_, ?_, ?_, ?_⟩
  · intro h
    have hT : T = some 0 := h
    rw [mkMetric, hT]
    exact pctOf_nonpos 0 C (by norm_num)
  · intro t h ht
    have hT : T = some t := h
    rw [mkMetric, hT]
    exact pctOf_nonpos t C ht
  · intro h
    have hT : T = none := h
    rw [mkMetric, hT]
    exact pctOf_nan_total C
  · intro t c hT hC ht
    have hT' : T = some t := hT
    have hC' : C = some c := hC
    rw [mkMetric, hT', hC']
    exact pctOf_pos c t ht

lemma foldl_objSet_get_preserved {α : Type} (g : LcovRecord → α) (rs : List LcovRecord)
    (k : String) (h : ∀ r ∈ rs, r.sourceFile ≠ k) :
    ∀ m : List (String × α),
      objGet (rs.foldl (fun acc r => objSet acc r.sourceFile (g r)) m) k = objGet m k := by
  induction rs with
  | nil => intro m; rfl
  | cons r rs ih =>
    intro m
    rw [List.foldl_cons, ih (fun r' hr' => h r' (by simp [hr'])),
      objSet_get_other _ _ _ _ (h r (by simp))]

lemma foldl_fst_no_eor (post : List (List Char)) :
    ∀ st : ParseState, (∀ l ∈ post, trimJS l ≠ eorChars) →
      (post.foldl processLine st).1 = st.1 := by
  induction post with
  | nil => intro st _; rfl
  | cons l post ih =>
    intro st h
    rw [List.foldl_cons, ih _ (fun l' hl' => h l' (by simp [hl']))]
    exact processLine_fst st l (h l (by simp))

lemma foldl_objSet_append_distinct {α : Type} (g : LcovRecord → α) (rs : List LcovRecord) :
    ∀ m : List (String × α),
      (∀ r ∈ rs, m.any (fun p => p.1 = r.sourceFile) = false) →
      List.Pairwise (fun a b => a.sourceFile ≠ b.sourceFile) rs →
      rs.foldl (fun acc r => objSet acc r.sourceFile (g r)) m
        = m ++ rs.map (fun r => (r.sourceFile, g r)) := by
  induction rs with
  | nil => intro m _ _; simp
  | cons r rs ih =>
    intro m hm hp
    rw [List.foldl_cons, objSet_append_new _ _ _ (hm r (by simp)),
      ih _ ?_ (List.Pairwise.of_cons hp)]
    · simp
    · intro r' hr'
      rw [List.any_append]
      have h1 : m.any (fun p => p.1 = r'.sourceFile) = false := hm r' (by simp [hr'])
      have h2 : r.sourceFile ≠ r'.sourceFile := (List.pairwise_cons.mp hp).1 r' hr'
      simp [h1, h2]

lemma processLine_unrecognized (st : ParseState) (l : List Char)
    (h : unrecognizedLine l) : processLine st l = st := by
  obtain ⟨h1, h2, h3, h4, h5, h6, h7, h8⟩ := h
  simp [processLine, h1, h2, h3, h4, h5, h6, h7, h8]

lemma parseLcovLines_skip (pre post : List (List Char)) (l : List Char)
    (h : ∀ st : ParseState, processLine st l = st) :
    parseLcovLines (pre ++ l :: post) = parseLcovLines (pre ++ post) := by
  rw [parseLcovLines, parseLcovLines, List.foldl_append, List.foldl_append,
    List.foldl_cons, h]

/-- C1 (corrected): the Aggregator's `pct` is `0` whenever `total` is not
strictly positive — not only when `total == 0` — and equals the
round-half-up-to-two-decimals of `(covered/total)*100` whenever `total` is
a positive integer and `covered` an integer; the two quoted examples
(7 of 10 lines hit gives 70, no lines gives 0) hold. -/
theorem c1_pct_amended (rs : List LcovRecord) (m : CoverageMetric)
    (hm : m = (lcovToCoverageReport rs).lines ∨ m = (lcovToCoverageReport rs).statements ∨
          m = (lcovToCoverageReport rs).functions ∨ m = (lcovToCoverageReport rs).branches) :
    ((m.total = some 0 → m.pct = some 0) ∧
     (∀ t : ℤ, m.total = some t → ¬ 0 < t → m.pct = some 0) ∧
     (m.total = none → m.pct = some 0) ∧
     (∀ t c : ℤ, m.total = some t → m.covered = some c → 0 < t →
        m.pct = some (roundHalfUp2 ((c : ℚ) / (t : ℚ) * 100)))) ∧
    (lcovToCoverageReport
      [⟨"f", [⟨some 1, some 1⟩, ⟨some 2, some 1⟩, ⟨some 3, some 1⟩, ⟨some 4, some 1⟩,
              ⟨some 5, some 1⟩, ⟨some 6, some 1⟩, ⟨some 7, some 1⟩, ⟨some 8, some 0⟩,
              ⟨some 9, some 0⟩, ⟨some 10, some 0⟩],
         ⟨some 0, some 0⟩, ⟨some 0, some 0⟩⟩]).lines.pct = some 70 ∧
    (lcovToCoverageReport
      [⟨"g", [], ⟨some 0, some 0⟩, ⟨some 0, some 0⟩⟩]).lines.pct = some 0 := by
  refine ⟨?_, ?_, ?_⟩
  · rcases hm with h | h | h | h <;>
      (rw [h]; exact mkMetric_pct_cases _ _)
  · show pctOf
      (some (sumLinesCovered
        [⟨"f", [⟨some 1, some 1⟩, ⟨some 2, some 1⟩, ⟨some 3, some 1⟩, ⟨some 4, some 1⟩,
                ⟨some 5, some 1⟩, ⟨some 6, some 1⟩, ⟨some 7, some 1⟩, ⟨some 8, some 0⟩,
                ⟨some 9, some 0⟩, ⟨some 10, some 0⟩],
           ⟨some 0, some 0⟩, ⟨some 0, some 0⟩⟩] : ℤ))
      (some (sumLinesLen
        [⟨"f", [⟨some 1, some 1⟩, ⟨some 2, some 1⟩, ⟨some 3, some 1⟩, ⟨some 4, some 1⟩,
                ⟨some 5, some 1⟩, ⟨some 6, some 1⟩, ⟨some 7, some 1⟩, ⟨some 8, some 0⟩,
                ⟨some 9, some 0⟩, ⟨some 10, some 0⟩],
           ⟨some 0, some 0⟩, ⟨some 0, some 0⟩⟩] : ℤ)) = some 70
    rw [show (sumLinesCovered
        [⟨"f", [⟨some 1, some 1⟩, ⟨some 2, some 1⟩, ⟨some 3, some 1⟩, ⟨some 4, some 1⟩,
                ⟨some 5, some 1⟩, ⟨some 6, some 1⟩, ⟨some 7, some 1⟩, ⟨some 8, some 0⟩,
                ⟨some 9, some 0⟩, ⟨some 10, some 0⟩],
           ⟨some 0, some 0⟩, ⟨some 0, some 0⟩⟩] : ℤ) = 7 by decide]
    rw [show (sumLinesLen
        [⟨"f", [⟨some 1, some 1⟩, ⟨some 2, some 1⟩, ⟨some 3, some 1⟩, ⟨some 4, some 1⟩,
                ⟨some 5, some 1⟩, ⟨some 6, some 1⟩, ⟨some 7, some 1⟩, ⟨some 8, some 0⟩,
                ⟨some 9, some 0⟩, ⟨some 10, some 0⟩],
           ⟨some 0, some 0⟩, ⟨some 0, some 0⟩⟩] : ℤ) = 10 by decide]
    rw [pctOf_pos 7 10 (by norm_num), roundHalfUp2]
    norm_num
  · show pctOf
      (some (sumLinesCovered [⟨"g", [], ⟨some 0, some 0⟩, ⟨some 0, some 0⟩⟩] : ℤ))
      (some (sumLinesLen [⟨"g", [], ⟨some 0, some 0⟩, ⟨some 0, some 0⟩⟩] : ℤ)) = some 0
    rw [show (sumLinesLen [⟨"g", [], ⟨some 0, some 0⟩, ⟨some 0, some 0⟩⟩] : ℤ) = 0 by decide]
    exact pctOf_nonpos 0 _ (by norm_num)

/-- C1 witness: the amended theorem applied to a concrete record set with
2 functions found and 1 hit. -/
theorem c1_pct_amended_witness :
    (lcovToCoverageReport
      [⟨"w", [], ⟨some 2, some 1⟩, ⟨some 0, some 0⟩⟩]).functions.pct
      = some (roundHalfUp2 (((1 : ℤ) : ℚ) / ((2 : ℤ) : ℚ) * 100)) := by
  have h := (c1_pct_amended
    [⟨"w", [], ⟨some 2, some 1⟩, ⟨some 0, some 0⟩⟩] _
    (Or.inr (Or.inr (Or.inl rfl)))).1.2.2.2
  exact h 2 1 (by decide) (by decide) (by norm_num)

/-- C1 counterexample: an input the Aggregator accepts whose functions
metric has `total = -3` (so `total ≠ 0`) yet `pct = 0`, while the claimed
formula value `roundHalfUp2((5 / -3) * 100)` is not `0`. -/
theorem c1_pct_counterexample :
    (lcovToCoverageReport (parseLcovData ("SF:a\nFNF:-3\nFNH:5\nend_of_record"))).functions.total
        = some (-3) ∧
    (lcovToCoverageReport (parseLcovData ("SF:a\nFNF:-3\nFNH:5\nend_of_record"))).functions.covered
        = some 5 ∧
    (lcovToCoverageReport (parseLcovData ("SF:a\nFNF:-3\nFNH:5\nend_of_record"))).functions.total
        ≠ some 0 ∧
    (lcovToCoverageReport (parseLcovData ("SF:a\nFNF:-3\nFNH:5\nend_of_record"))).functions.pct
        = some 0 ∧
    roundHalfUp2 (((5 : ℤ) : ℚ) / ((-3 : ℤ) : ℚ) * 100) ≠ 0 := by
  refine ⟨by decide, by decide, by decide, by decide, ?_⟩
  rw [roundHalfUp2]
  norm_num

/-- C2: for an LCOV text whose lines form exactly `N` well-formed
`SF:` … `end_of_record` blocks (non-empty path, body free of openers and
closers), the parser yields exactly `N` records, in input order, each
carrying its block's path, and each record's `lines` sequence is exactly
the block's `DA:` directives in order of appearance — duplicates kept. -/
theorem c2_parser_blocks (bs : List LcovBlock) (content : String)
    (hwf : ∀ b ∈ bs, wfBlock b)
    (hsplit : splitChar '\n' content.toList = (bs.map blockLinesOf).flatten) :
    (parseLcovData content).length = bs.length ∧
    (parseLcovData content).map (fun r => r.sourceFile) = bs.map sfPathOf ∧
    (parseLcovData content).map (fun r => r.lines) = bs.map (fun b => daEntriesOf b.body) := by
  obtain ⟨out, hout, hsf, hlines⟩ := foldl_blocks bs [] hwf
  have hdata : parseLcovData content = out := by
    rw [parseLcovData, hsplit, parseLcovLines, hout]
    simp
  refine ⟨?_, by rw [hdata, hsf], by rw [hdata, hlines]⟩
  have := congrArg List.length hsf
  simpa [hdata] using this

/-- C2 witness: two concrete blocks, the first with a duplicated `DA:`
line number, parse to two records in order with the duplicate kept. -/
theorem c2_parser_blocks_witness :
    (parseLcovData ("SF:a.ts\nDA:7,1\nDA:7,2\nend_of_record\nSF:b.ts\nDA:3,0\nend_of_record")).length
        = 2 ∧
    (parseLcovData ("SF:a.ts\nDA:7,1\nDA:7,2\nend_of_record\nSF:b.ts\nDA:3,0\nend_of_record")).map
        (fun r => r.sourceFile) = ["a.ts", "b.ts"] ∧
    (parseLcovData ("SF:a.ts\nDA:7,1\nDA:7,2\nend_of_record\nSF:b.ts\nDA:3,0\nend_of_record")).map
        (fun r => r.lines)
      = [[⟨some 7, some 1⟩, ⟨some 7, some 2⟩], [⟨some 3, some 0⟩]] := by
  have h := c2_parser_blocks
    [⟨"SF:a.ts".toList, ["DA:7,1".toList, "DA:7,2".toList], "end_of_record".toList⟩,
     ⟨"SF:b.ts".toList, ["DA:3,0".toList], "end_of_record".toList⟩]
    "SF:a.ts\nDA:7,1\nDA:7,2\nend_of_record\nSF:b.ts\nDA:3,0\nend_of_record"
    (by decide) (by decide)
  exact ⟨h.1, h.2.1, h.2.2⟩

/-- C3 (amended): the Aggregator is additive count by count — each of the
eight accumulated counts over a record set equals the JS sum of the
corresponding single-record counts — and, provided no record's
`sourceFile` is the reserved key `"total"`, the Summary Builder's
`"total"` entry is exactly the Aggregator of the whole set. -/
theorem c3_additive_amended (rs : List LcovRecord) :
    ((lcovToCoverageReport rs).lines.total
        = jsSum (rs.map fun r => (lcovToCoverageReport [r]).lines.total)) ∧
    ((lcovToCoverageReport rs).lines.covered
        = jsSum (rs.map fun r => (lcovToCoverageReport [r]).lines.covered)) ∧
    ((lcovToCoverageReport rs).statements.total
        = jsSum (rs.map fun r => (lcovToCoverageReport [r]).statements.total)) ∧
    ((lcovToCoverageReport rs).statements.covered
        = jsSum (rs.map fun r => (lcovToCoverageReport [r]).statements.covered)) ∧
    ((lcovToCoverageReport rs).functions.total
        = jsSum (rs.map fun r => (lcovToCoverageReport [r]).functions.total)) ∧
    ((lcovToCoverageReport rs).functions.covered
        = jsSum (rs.map fun r => (lcovToCoverageReport [r]).functions.covered)) ∧
    ((lcovToCoverageReport rs).branches.total
        = jsSum (rs.map fun r => (lcovToCoverageReport [r]).branches.total)) ∧
    ((lcovToCoverageReport rs).branches.covered
        = jsSum (rs.map fun r => (lcovToCoverageReport [r]).branches.covered)) ∧
    ((∀ r ∈ rs, r.sourceFile ≠ "total") →
      objGet (lcovToJsonSummary rs) "total" = some (lcovToCoverageReport rs)) := by
  have hlen : ∀ r : LcovRecord,
      (lcovToCoverageReport [r]).lines.total = some (r.lines.length : ℤ) := by
    intro r
    show some (sumLinesLen [r] : ℤ) = _
    rw [sumLinesLen_single]
  have hcov : ∀ r : LcovRecord,
      (lcovToCoverageReport [r]).lines.covered
        = some (((r.lines.filter (fun l => jsGt0 l.hit)).length : ℕ) : ℤ) := by
    intro r
    show some (sumLinesCovered [r] : ℤ) = _
    rw [sumLinesCovered_single]
  have hstT : ∀ r : LcovRecord,
      (lcovToCoverageReport [r]).statements.total = some (r.lines.length : ℤ) := hlen
  have hstC : ∀ r : LcovRecord,
      (lcovToCoverageReport [r]).statements.covered
        = some (((r.lines.filter (fun l => jsGt0 l.hit)).length : ℕ) : ℤ) := hcov
  have hfnT : ∀ r : LcovRecord,
      (lcovToCoverageReport [r]).functions.total = r.functions.found :=
    fun r => sumFnFound_single r
  have hfnC : ∀ r : LcovRecord,
      (lcovToCoverageReport [r]).functions.covered = r.functions.hit :=
    fun r => sumFnHit_single r
  have hbrT : ∀ r : LcovRecord,
      (lcovToCoverageReport [r]).branches.total = r.branches.found :=
    fun r => sumBrFound_single r
  have hbrC : ∀ r : LcovRecord,
      (lcovToCoverageReport [r]).branches.covered = r.branches.hit :=
    fun r => sumBrHit_single r
  refine ⟨?_, ?_, ?_, ?_, ?_, ?_, ?_, ?_, ?_⟩
  · rw [List.map_congr_left (fun r _ => hlen r), jsSum_natCast_total]
    rfl
  · rw [List.map_congr_left (fun r _ => hcov r), jsSum_natCast_total]
    rfl
  · rw [List.map_congr_left (fun r _ => hstT r), jsSum_natCast_total]
    rfl
  · rw [List.map_congr_left (fun r _ => hstC r), jsSum_natCast_total]
    rfl
  · rw [List.map_congr_left (fun r _ => hfnT r), jsSum_foldl]
    rfl
  · rw [List.map_congr_left (fun r _ => hfnC r), jsSum_foldl]
    rfl
  · rw [List.map_congr_left (fun r _ => hbrT r), jsSum_foldl]
    rfl
  · rw [List.map_congr_left (fun r _ => hbrC r), jsSum_foldl]
    rfl
  · intro h
    rw [lcovToJsonSummary, foldl_objSet_get_preserved _ rs "total" h]
    simp [objGet]

/-- C3 witness: the amended theorem applied to a concrete two-record set. -/
theorem c3_additive_amended_witness :
    objGet (lcovToJsonSummary [⟨"a.ts", [⟨some 1, some 1⟩], ⟨some 1, some 0⟩, ⟨some 0, some 0⟩⟩,
        ⟨"b.ts", [⟨some 2, some 0⟩], ⟨some 0, some 0⟩, ⟨some 0, some 0⟩⟩]) "total"
      = some (lcovToCoverageReport [⟨"a.ts", [⟨some 1, some 1⟩], ⟨some 1, some 0⟩, ⟨some 0, some 0⟩⟩,
        ⟨"b.ts", [⟨some 2, some 0⟩], ⟨some 0, some 0⟩, ⟨some 0, some 0⟩⟩]) :=
  (c3_additive_amended _).2.2.2.2.2.2.2.2 (by decide)

/-- C3 counterexample: a record set containing a record whose `sourceFile`
is the reserved key `"total"`; the Summary Builder overwrites the reserved
entry with that file's individual bundle, so `summary["total"]` is not the
Aggregator of the whole set (their line totals differ: 1 vs 3). -/
theorem c3_total_counterexample :
    (objGet (lcovToJsonSummary
        (parseLcovData ("SF:total\nDA:1,1\nend_of_record\nSF:b.ts\nDA:2,0\nDA:3,1\nend_of_record")))
        "total").map (fun rep => rep.lines.total) = some (some 1) ∧
    (lcovToCoverageReport
        (parseLcovData ("SF:total\nDA:1,1\nend_of_record\nSF:b.ts\nDA:2,0\nDA:3,1\nend_of_record"))).lines.total
      = some 3 ∧
    objGet (lcovToJsonSummary
        (parseLcovData ("SF:total\nDA:1,1\nend_of_record\nSF:b.ts\nDA:2,0\nDA:3,1\nend_of_record")))
        "total"
      ≠ some (lcovToCoverageReport
        (parseLcovData ("SF:total\nDA:1,1\nend_of_record\nSF:b.ts\nDA:2,0\nDA:3,1\nend_of_record"))) := by
  refine ⟨by decide, by decide, fun hcon => ?_⟩
  have h1 := congrArg (fun o => o.map (fun rep => rep.lines.total)) hcon
  simp only at h1
  rw [show (objGet (lcovToJsonSummary
        (parseLcovData ("SF:total\nDA:1,1\nend_of_record\nSF:b.ts\nDA:2,0\nDA:3,1\nend_of_record")))
        "total").map (fun rep => rep.lines.total) = some (some 1) by decide] at h1
  rw [show ((some (lcovToCoverageReport
        (parseLcovData ("SF:total\nDA:1,1\nend_of_record\nSF:b.ts\nDA:2,0\nDA:3,1\nend_of_record")))).map
        (fun rep => rep.lines.total)) = some (some 3) by decide] at h1
  exact absurd h1 (by decide)

/-- C4: the two Report Loader entry points diverge on a failed read: the
summary path records a `setFailed` diagnostic and re-raises (no summary
value exists), while the final-map path records only a warning and returns
the empty final report. -/
theorem c4_loader_divergence :
    (parseBunLcovSummary ReadResult.err).2 = Except.error () ∧
    (parseBunLcovSummary ReadResult.err).1 = [LogEvent.logSetFailed] ∧
    (∀ S : JsonSummary, (parseBunLcovSummary ReadResult.err).2 ≠ Except.ok S) ∧
    (parseBunLcovFinal ReadResult.err).2 = ([] : JsonFinal) ∧
    (parseBunLcovFinal ReadResult.err).1 = [LogEvent.logWarning] := by
  refine ⟨rfl, rfl, fun S h => by simp [parseBunLcovSummary] at h, rfl, rfl⟩

/-- C5: a record reaches the output only through an `end_of_record` line
while a record with a non-empty `sourceFile` is open (first conjunct); a
tail of input containing no `end_of_record` line contributes no record, so
a record opened but never closed is discarded (second conjunct); and an
`SF:` line unconditionally replaces the open record without pushing it
(third conjunct). -/
theorem c5_materialization :
    (∀ (st : ParseState) (l : List Char),
        (processLine st l).1 = st.1 ∨
        (trimJS l = eorChars ∧ ∃ r : LcovRecord, st.2 = some r ∧ r.sourceFile ≠ "" ∧
          processLine st l = (st.1 ++ [r], none))) ∧
    (∀ pre post : List (List Char), (∀ l ∈ post, trimJS l ≠ eorChars) →
        parseLcovLines (pre ++ post) = parseLcovLines pre) ∧
    (∀ (st : ParseState) (l : List Char), startsWithChars sfTag (trimJS l) = true →
        processLine st l = (st.1,
          some ⟨((trimJS l).drop 3).asString, [], ⟨some 0, some 0⟩, ⟨some 0, some 0⟩⟩)) := by
  refine ⟨?_, ?_, ?_⟩
  · intro st l
    by_cases heor : trimJS l = eorChars
    · obtain ⟨acc, cur⟩ := st
      cases cur with
      | none => left; rw [processLine_eor_none _ _ heor]
      | some r =>
        by_cases hsf' : r.sourceFile = ""
        · left
          rw [processLine_eor_some _ _ _ heor]
          simp [hsf']
        · right
          exact ⟨heor, r, rfl, hsf',
            by rw [processLine_eor_some _ _ _ heor]; simp [hsf']⟩
    · left
      exact processLine_fst st l heor
  · intro pre post h
    rw [parseLcovLines, parseLcovLines, List.foldl_append, foldl_fst_no_eor post _ h]
  · intro st l h
    exact processLine_sf st l h

/-- C5 witness: a block opened by `SF:` but never closed before the end of
input contributes nothing. -/
theorem c5_materialization_witness :
    parseLcovLines ["SF:a.ts".toList, "DA:1,1".toList]
      = parseLcovLines ["SF:a.ts".toList] :=
  c5_materialization.2.1 ["SF:a.ts".toList] ["DA:1,1".toList] (by decide)

/-- C6: for every record, the final map's entry at its `sourceFile` (the
record being the last with that path) has `path` equal to the source file,
`all = false`, and for each index `i` of the record's `lines` sequence the
statement id is the stringified zero-based index `toString i` — not the
LCOV line number — mapped to the span `line`-column-0 to `line`-column-100,
while `s` maps the same id to that entry's hit count. -/
theorem c6_final_map (rs₁ rs₂ : List LcovRecord) (r : LcovRecord)
    (hafter : ∀ r' ∈ rs₂, r'.sourceFile ≠ r.sourceFile) :
    ∃ e : FileCoverageReport,
      objGet (lcovToJsonFinal (rs₁ ++ r :: rs₂)) r.sourceFile = some e ∧
      e.path = r.sourceFile ∧
      e.all = false ∧
      e.statementMap.length = r.lines.length ∧
      e.s.length = r.lines.length ∧
      (∀ (i : ℕ) (li : LcovLine), r.lines[i]? = some li →
        e.statementMap[i]? = some (toString i,
          ⟨⟨li.line, some 0⟩, ⟨li.line, some 100⟩⟩) ∧
        e.s[i]? = some (toString i, li.hit)) := by
  refine ⟨fileFinalOf r, ?_, rfl, rfl, by simp [fileFinalOf], by simp [fileFinalOf], ?_⟩
  · rw [lcovToJsonFinal, List.foldl_append, List.foldl_cons,
      foldl_objSet_get_preserved _ rs₂ _ hafter]
    exact objSet_get_self _ _ _
  · intro i li hli
    constructor <;> simp [fileFinalOf, List.getElem?_map, List.getElem?_enum, hli]

/-- C6 witness: the claim's concrete example, `lines = [(5,1), (9,0)]`. -/
theorem c6_final_map_witness :
    ∃ e : FileCoverageReport,
      objGet (lcovToJsonFinal [⟨"src/a.ts", [⟨some 5, some 1⟩, ⟨some 9, some 0⟩],
          ⟨some 0, some 0⟩, ⟨some 0, some 0⟩⟩]) "src/a.ts" = some e ∧
      e.statementMap[0]? = some ("0", ⟨⟨some 5, some 0⟩, ⟨some 5, some 100⟩⟩) ∧
      e.s[0]? = some ("0", some 1) ∧
      e.statementMap[1]? = some ("1", ⟨⟨some 9, some 0⟩, ⟨some 9, some 100⟩⟩) ∧
      e.s[1]? = some ("1", some 0) := by
  obtain ⟨e, hget, hpath, hall, hlen1, hlen2, hidx⟩ :=
    c6_final_map [] []
      ⟨"src/a.ts", [⟨some 5, some 1⟩, ⟨some 9, some 0⟩], ⟨some 0, some 0⟩, ⟨some 0, some 0⟩⟩
      (by simp)
  obtain ⟨h0a, h0b⟩ := hidx 0 ⟨some 5, some 1⟩ (by decide)
  obtain ⟨h1a, h1b⟩ := hidx 1 ⟨some 9, some 0⟩ (by decide)
  exact ⟨e, hget, h0a, h0b, h1a, h1b⟩

/-- C7: with pairwise-distinct source files none of which is the reserved
key, the summary is literally the `total` entry first followed by one entry
per record in parse order; and for two records sharing a source file, the
map holds the second record's bundle at that key (last-write-wins) while
the `total` entry is the Aggregator of both records. -/
theorem c7_summary_order (rs : List LcovRecord) (r₁ r₂ : LcovRecord)
    (hdist : List.Pairwise (fun a b => a.sourceFile ≠ b.sourceFile) rs)
    (hnot : ∀ r ∈ rs, r.sourceFile ≠ "total")
    (hshare : r₁.sourceFile = r₂.sourceFile) (h₂tot : r₂.sourceFile ≠ "total") :
    lcovToJsonSummary rs
      = ("total", lcovToCoverageReport rs)
          :: rs.map (fun r => (r.sourceFile, lcovToCoverageReport [r])) ∧
    objGet (lcovToJsonSummary [r₁, r₂]) r₂.sourceFile = some (lcovToCoverageReport [r₂]) ∧
    objGet (lcovToJsonSummary [r₁, r₂]) "total" = some (lcovToCoverageReport [r₁, r₂]) := by
  have h₁tot : r₁.sourceFile ≠ "total" := by rw [hshare]; exact h₂tot
  refine ⟨?_, ?_, ?_⟩
  · rw [lcovToJsonSummary, foldl_objSet_append_distinct _ rs _ ?_ hdist]
    · simp
    · intro r hr
      simp only [List.any_cons, List.any_nil, Bool.or_false, decide_eq_false_iff_not]
      exact fun hc => (hnot r hr) hc.symm
  · show objGet (objSet (objSet _ r₁.sourceFile _) r₂.sourceFile _) r₂.sourceFile = _
    exact objSet_get_self _ _ _
  · show objGet (objSet (objSet _ r₁.sourceFile _) r₂.sourceFile _) "total" = _
    rw [objSet_get_other _ _ _ _ h₂tot, objSet_get_other _ _ _ _ h₁tot]
    simp [objGet]

/-- C7 witness: the theorem at a concrete record set and a concrete pair of
records sharing one source file. -/
theorem c7_summary_order_witness :
    lcovToJsonSummary [⟨"a.ts", [⟨some 1, some 1⟩], ⟨some 0, some 0⟩, ⟨some 0, some 0⟩⟩]
      = ("total",
          lcovToCoverageReport [⟨"a.ts", [⟨some 1, some 1⟩], ⟨some 0, some 0⟩, ⟨some 0, some 0⟩⟩])
        :: [("a.ts",
          lcovToCoverageReport [⟨"a.ts", [⟨some 1, some 1⟩], ⟨some 0, some 0⟩, ⟨some 0, some 0⟩⟩])] ∧
    objGet (lcovToJsonSummary
        [⟨"d.ts", [⟨some 1, some 1⟩], ⟨some 0, some 0⟩, ⟨some 0, some 0⟩⟩,
         ⟨"d.ts", [⟨some 2, some 0⟩], ⟨some 0, some 0⟩, ⟨some 0, some 0⟩⟩]) "d.ts"
      = some (lcovToCoverageReport
          [⟨"d.ts", [⟨some 2, some 0⟩], ⟨some 0, some 0⟩, ⟨some 0, some 0⟩⟩]) ∧
    objGet (lcovToJsonSummary
        [⟨"d.ts", [⟨some 1, some 1⟩], ⟨some 0, some 0⟩, ⟨some 0, some 0⟩⟩,
         ⟨"d.ts", [⟨some 2, some 0⟩], ⟨some 0, some 0⟩, ⟨some 0, some 0⟩⟩]) "total"
      = some (lcovToCoverageReport
          [⟨"d.ts", [⟨some 1, some 1⟩], ⟨some 0, some 0⟩, ⟨some 0, some 0⟩⟩,
           ⟨"d.ts", [⟨some 2, some 0⟩], ⟨some 0, some 0⟩, ⟨some 0, some 0⟩⟩]) := by
  have h := c7_summary_order
    [⟨"a.ts", [⟨some 1, some 1⟩], ⟨some 0, some 0⟩, ⟨some 0, some 0⟩⟩]
    ⟨"d.ts", [⟨some 1, some 1⟩], ⟨some 0, some 0⟩, ⟨some 0, some 0⟩⟩
    ⟨"d.ts", [⟨some 2, some 0⟩], ⟨some 0, some 0⟩, ⟨some 0, some 0⟩⟩
    (by simp) (by decide) (by decide) (by decide)
  exact ⟨h.1, h.2.1, h.2.2⟩

/-- C8: the parser is tolerant — a blank line (one that trims to empty)
inserted anywhere leaves the output unchanged; an unrecognized line
inserted anywhere leaves the output unchanged; and each of the
`DA:`/`FNF:`/`FNH:`/`BRF:`/`BRH:` directives arriving while no record is
open leaves the state unchanged (no error is possible: the parser is a
total function on strings). -/
theorem c8_parser_tolerant :
    (∀ (pre post : List (List Char)) (l : List Char), (trimJS l).isEmpty = true →
        parseLcovLines (pre ++ l :: post) = parseLcovLines (pre ++ post)) ∧
    (∀ (pre post : List (List Char)) (l : List Char), unrecognizedLine l →
        parseLcovLines (pre ++ l :: post) = parseLcovLines (pre ++ post)) ∧
    (∀ (acc : List LcovRecord) (l : List Char),
        (startsWithChars daTag (trimJS l) = true ∨ startsWithChars fnfTag (trimJS l) = true ∨
         startsWithChars fnhTag (trimJS l) = true ∨ startsWithChars brfTag (trimJS l) = true ∨
         startsWithChars brhTag (trimJS l) = true) →
        processLine (acc, none) l = (acc, none)) := by
  refine ⟨?_, ?_, ?_⟩
  · intro pre post l h
    exact parseLcovLines_skip pre post l (fun st => processLine_blank st l h)
  · intro pre post l h
    exact parseLcovLines_skip pre post l (fun st => processLine_unrecognized st l h)
  · intro acc l h
    have hsf : startsWithChars sfTag (trimJS l) = false := by
      rcases h with h | h | h | h | h
      · exact head_excl (by decide)
          (show startsWithChars ('D' :: ['A', ':']) (trimJS l) = true from h)
      · exact head_excl (by decide)
          (show startsWithChars ('F' :: ['N', 'F', ':']) (trimJS l) = true from h)
      · exact head_excl (by decide)
          (show startsWithChars ('F' :: ['N', 'H', ':']) (trimJS l) = true from h)
      · exact head_excl (by decide)
          (show startsWithChars ('B' :: ['R', 'F', ':']) (trimJS l) = true from h)
      · exact head_excl (by decide)
          (show startsWithChars ('B' :: ['R', 'H', ':']) (trimJS l) = true from h)
    exact processLine_none acc l hsf

/-- C8 witness: inserting a blank line into a concrete input leaves the
parse unchanged. -/
theorem c8_parser_tolerant_witness :
    parseLcovLines ["SF:a.ts".toList, "  ".toList, "DA:1,1".toList, "end_of_record".toList]
      = parseLcovLines ["SF:a.ts".toList, "DA:1,1".toList, "end_of_record".toList] :=
  c8_parser_tolerant.1 ["SF:a.ts".toList] ["DA:1,1".toList, "end_of_record".toList]
    "  ".toList (by decide)
